import Mathlib

/-!
# MailPulse SMTP relay — verification of the core against its specification

A shallow embedding of the MailPulse relay core (Go) in Lean 4:

* `relay/internal/security/ratelimit.go` — the two rate limiters
  (`InMemoryRateLimiter`, `RedisRateLimiter`);
* the SMTP session state machine (`SMTPSession` in the `smtp` package):
  `processCommand` and its handlers, `processEmail`;
* `relay/internal/auth` — `InMemoryAuthManager.ValidateAPIKey`;
* `relay/internal/storage/storage.go` — `StoreEmail` / `GetEmail`
  recipient-array encoding (`joinStrings` / `parseArrayString`).

Timestamps are modelled as `Nat` seconds since the Unix epoch (Go's
`time.Time` values are non-negative Unix instants in this system).
Go byte strings are modelled as `String` / `List Char`; all credentials,
commands and stored contents exercised here are ASCII, where Go's
byte-wise and rune-wise operations agree.  External library calls that
are not repository code (bcrypt comparison, `net/mail` subject parsing,
the database and Redis connections, the TLS handshake) are modelled as
explicit parameters recording their outcome, exactly at the call sites
where the Go code consumes that outcome.
-/

namespace MailPulse

/-! ## String helpers

Executable counterparts of the Go `strings` operations the relay uses.
They recurse structurally over `List Char` so that concrete runs reduce
by `decide`/`rfl`. -/

/-- Go `strings.Fields`: split around runs of whitespace, dropping empties. -/
def fieldsAux : List Char → List Char → List String
  | acc, [] => if acc.isEmpty then [] else [String.mk acc.reverse]
  | acc, c :: rest =>
    if c.isWhitespace then
      if acc.isEmpty then fieldsAux [] rest
      else String.mk acc.reverse :: fieldsAux [] rest
    else fieldsAux (c :: acc) rest

/-- Go `strings.Fields` on a `String`. -/
def fields (s : String) : List String := fieldsAux [] s.data

/-- Go `strings.ToUpper` (ASCII-faithful). -/
def toUpperStr (s : String) : String := String.mk (s.data.map Char.toUpper)

/-- Go `strings.ToLower` (ASCII-faithful). -/
def toLowerStr (s : String) : String := String.mk (s.data.map Char.toLower)

/-- Go `strings.EqualFold` (ASCII-faithful: case-insensitive equality). -/
def eqFold (a b : String) : Bool :=
  a.data.map Char.toLower == b.data.map Char.toLower

/-- Go `strings.TrimSpace` on the character list. -/
def trimWSList (cs : List Char) : List Char :=
  ((cs.dropWhile Char.isWhitespace).reverse.dropWhile Char.isWhitespace).reverse

/-- Go `strings.TrimSpace`. -/
def trimWS (s : String) : String := String.mk (trimWSList s.data)

/-- Go `strings.Trim(s, cutset)`: drop leading and trailing characters that
belong to `cutset`. -/
def trimSet (s : String) (cutset : List Char) : String :=
  String.mk
    (((s.data.dropWhile (cutset.contains ·)).reverse.dropWhile
        (cutset.contains ·)).reverse)

/-- Go `strings.SplitN(s, ":", 2)`: the part before the first `':'` and the
rest; `none` when `s` has no `':'` (Go then returns a single part). -/
def splitColon2Aux : List Char → List Char → Option (String × String)
  | _, [] => none
  | acc, ':' :: rest => some (String.mk acc.reverse, String.mk rest)
  | acc, c :: rest => splitColon2Aux (c :: acc) rest

/-- Go `strings.SplitN(s, ":", 2)` as an optional pair. -/
def splitColon2 (s : String) : Option (String × String) :=
  splitColon2Aux [] s.data

/-! ## Quota tracker (`relay/internal/security/ratelimit.go`)

Both limiters are keyed by project id; we model the per-project slice of
state (the recorded send instants of one project) directly, which is the
per-key view the Go maps provide. -/

/-- Outcome of `CheckEmailQuota`: `ok`, or a typed rejection carrying the
offending counter value (the Go code returns error strings
`"... exceeded per-minute quota: c/q"` / `"... exceeded daily quota: c/q"`). -/
inductive QuotaDecision where
  | ok : QuotaDecision
  | minuteExceeded (count limit : Nat) : QuotaDecision
  | dailyExceeded (count limit : Nat) : QuotaDecision
deriving DecidableEq, Repr

/-- Go `InMemoryRateLimiter.CheckEmailQuota` for one project.

`sends` is `m.emailCounts[projectID]` (recorded send instants), `now` the
current time.  The Go loop keeps entries with `emailTime.After(dayCutoff)`
(`now - 86400 < s`, written additively to avoid truncated subtraction),
counts them as `emailsToday`, and inside that branch counts
`emailsThisMinute` for entries also after `minuteCutoff`.  It then checks
minute first, day second, with `>=` against the limits.  Returns the
decision together with the pruned list the method writes back. -/
def inMemCheckEmailQuota (sends : List Nat) (now quotaPerMinute quotaDaily : Nat) :
    QuotaDecision × List Nat :=
  let recentEmails := sends.filter (fun s => now < s + 86400)
  let emailsToday := recentEmails.length
  let emailsThisMinute :=
    (recentEmails.filter (fun s => now < s + 60)).length
  if quotaPerMinute ≤ emailsThisMinute then
    (.minuteExceeded emailsThisMinute quotaPerMinute, recentEmails)
  else if quotaDaily ≤ emailsToday then
    (.dailyExceeded emailsToday quotaDaily, recentEmails)
  else (.ok, recentEmails)

/-- Go `InMemoryRateLimiter.RecordEmailSent` for one project: append `now`. -/
def inMemRecordEmailSent (sends : List Nat) (now : Nat) : List Nat :=
  sends ++ [now]

/-- Go `RedisRateLimiter`'s per-minute counter as read by `CheckEmailQuota`.

The Go code reads key `emails:minute:<id>:<now.Unix()/60>`;
`RecordEmailSent` increments `emails:minute:<id>:<s.Unix()/60>` at each
send instant `s` (expiry 2 minutes).  A key read at `now` was only ever
incremented at instants in the same minute bucket, i.e. less than 60
seconds before the read, so its 2-minute TTL cannot have elapsed: the
value read is exactly the number of recorded sends in `now`'s bucket. -/
def redisMinuteCount (sends : List Nat) (now : Nat) : Nat :=
  (sends.filter (fun s => s / 60 == now / 60)).length

/-- Go `RedisRateLimiter`'s daily counter as read by `CheckEmailQuota`.

The Go code keys by the calendar date `now.Format("2006-01-02")`
(expiry 25 h, again longer than the distance to any increment of the
key that is read).  We model the date bucket as `s / 86400`, the UTC
calendar day of a non-negative Unix instant. -/
def redisDayCount (sends : List Nat) (now : Nat) : Nat :=
  (sends.filter (fun s => s / 86400 == now / 86400)).length

/-- Go `RedisRateLimiter.CheckEmailQuota` for one project: minute bucket
first, day bucket second, `>=` against the limits. -/
def redisCheckEmailQuota (sends : List Nat) (now quotaPerMinute quotaDaily : Nat) :
    QuotaDecision :=
  let minuteCount := redisMinuteCount sends now
  if quotaPerMinute ≤ minuteCount then
    .minuteExceeded minuteCount quotaPerMinute
  else
    let dayCount := redisDayCount sends now
    if quotaDaily ≤ dayCount then .dailyExceeded dayCount quotaDaily
    else .ok

/-- Modelled from the spec: the number of sends in the trailing window
`(now − w, now]` — "in the trailing 60 seconds from now" / "in the
trailing 24 hours from now", a sliding window anchored at `now`. -/
def slidingWindowCount (sends : List Nat) (now w : Nat) : Nat :=
  (sends.filter (fun s => now < s + w && s ≤ now)).length

/-! ## Credential store (`relay/internal/auth`, `InMemoryAuthManager`) -/

/-- Go `auth.Project` — the fields `ValidateAPIKey`, `IsIPAllowed` and the
session read.  `apiKeyHash` holds the stored bcrypt password hash (the
manager stores the password hash in its `APIKeyHash` field). -/
structure AuthProject where
  id : String
  apiKey : String
  apiKeyHash : String
  status : String
  quotaPerMinute : Nat
  quotaDaily : Nat
  requireIPAllow : Bool
  allowedIPs : List String
deriving DecidableEq, Repr

/-- Errors returned by `ValidateAPIKey` (Go returns `errors.New` values
with exactly these messages). -/
inductive AuthErr where
  | invalidPassword       -- "invalid password"
  | notActive             -- "project is not active"
  | invalidCredentials    -- "invalid API credentials"
deriving DecidableEq, Repr

/-- Go `InMemoryAuthManager.ValidateAPIKey`, parameterized by the outcome of
`bcrypt.CompareHashAndPassword` (`bcryptOK hash pw = true` iff the
comparison returns nil; bcrypt is an external library).  The Go loop
ranges over the project map and returns at the first project whose
stored API key matches the username under `strings.EqualFold`; `projects`
is that iteration order.  If the matched project has a non-empty stored
hash, the hash is compared against the lowercased password; then the
status must be `"active"`. -/
def ValidateAPIKey (bcryptOK : String → String → Bool)
    (projects : List AuthProject) (username password : String) :
    Except AuthErr AuthProject :=
  match projects with
  | [] => .error .invalidCredentials
  | project :: rest =>
    if eqFold project.apiKey username then
      if project.apiKeyHash ≠ "" &&
          !(bcryptOK project.apiKeyHash (toLowerStr password)) then
        .error .invalidPassword
      else if project.status ≠ "active" then .error .notActive
      else .ok project
    else ValidateAPIKey bcryptOK rest username password

/-- Go `InMemoryAuthManager.IsIPAllowed`, applied to the project the manager
looks up by id (the same snapshot entry `ValidateAPIKey` returned). -/
def isIPAllowed (project : AuthProject) (ip : String) : Bool :=
  if !project.requireIPAllow || project.allowedIPs.isEmpty then true
  else project.allowedIPs.contains ip

/-! ## Message store (`relay/internal/storage/storage.go`)

`StoreEmail` writes `to_emails` as the literal `"{" ++ join(To, ",") ++ "}"`
and `content_enc` as the raw bytes; `GetEmail` scans `to_emails` back as
one string and decodes it with `parseArrayString`.  We model the database
round trip of one row: the stored textual form is returned verbatim to
the scan (PostgreSQL `TEXT[]` display form of the inserted literal), and
`content_enc` round-trips as opaque bytes. -/

/-- Go `joinStrings(strs, sep)` from `storage.go`. -/
def joinStrings (strs : List String) (sep : String) : String :=
  match strs with
  | [] => ""
  | first :: rest => rest.foldl (fun acc s => acc ++ sep ++ s) first

/-- The `to_emails` value `StoreEmail` sends to the database:
`fmt.Sprintf("{%s}", joinStrings(email.To, ","))`. -/
def storedToEmails (toEmails : List String) : String :=
  "\x7b" ++ joinStrings toEmails "," ++ "\x7d"

/-- Go `parseArrayString` from `storage.go`: `""` and `"{}"` decode to the
empty list; otherwise the braces are stripped and the whole remaining
text is returned as a single element ("Simplified - just return as
single element"). -/
def parseArrayString (s : String) : List String :=
  if s = "" || s = "\x7b\x7d" then []
  else [String.mk ((s.data.drop 1).take (s.data.length - 2))]

/-- The `To` list a `GetEmail` following a `StoreEmail` returns: the
stored textual array decoded by `parseArrayString`. -/
def roundTripTo (toEmails : List String) : List String :=
  parseArrayString (storedToEmails toEmails)

/-! ## Base64 (`encoding/base64`, `StdEncoding.DecodeString`)

Standard-alphabet strict decoding: the input is consumed in quanta of
four characters; `'='` padding may appear only at the very end.  Values
are bytes (`Nat < 256`). -/

/-- The value of one standard-alphabet base64 character. -/
def b64Val (c : Char) : Option Nat :=
  if 'A' ≤ c ∧ c ≤ 'Z' then some (c.toNat - 65)
  else if 'a' ≤ c ∧ c ≤ 'z' then some (c.toNat - 97 + 26)
  else if '0' ≤ c ∧ c ≤ '9' then some (c.toNat - 48 + 52)
  else if c = '+' then some 62
  else if c = '/' then some 63
  else none

/-- Decode a base64 character stream, four characters at a time. -/
def b64DecodeAux : List Char → Option (List Nat)
  | [] => some []
  | c1 :: c2 :: c3 :: c4 :: rest =>
    match b64Val c1, b64Val c2 with
    | some v1, some v2 =>
      if c3 = '=' then
        if c4 = '=' ∧ rest = [] then some [(v1 * 4 + v2 / 16)]
        else none
      else
        match b64Val c3 with
        | some v3 =>
          if c4 = '=' then
            if rest = [] then
              some [(v1 * 4 + v2 / 16), (v2 % 16 * 16 + v3 / 4)]
            else none
          else
            match b64Val c4 with
            | some v4 =>
              match b64DecodeAux rest with
              | some tail =>
                some ((v1 * 4 + v2 / 16) :: (v2 % 16 * 16 + v3 / 4) ::
                      (v3 % 4 * 64 + v4) :: tail)
              | none => none
            | none => none
        | none => none
    | _, _ => none
  | _ => none

/-- Go `base64.StdEncoding.DecodeString`: `none` models a decode error. -/
def b64Decode (s : String) : Option (List Nat) := b64DecodeAux s.data

/-- Go `strings.Split(string(bytes), "\x00")`: split a byte sequence on NUL.
Like Go's `Split`, always returns at least one (possibly empty) part. -/
def splitOnNul : List Nat → List (List Nat)
  | [] => [[]]
  | 0 :: rest => [] :: splitOnNul rest
  | b :: rest =>
    match splitOnNul rest with
    | g :: gs => (b :: g) :: gs
    | [] => [[b]]

/-- Go's byte-sequence-to-string view (the credentials handled here are
ASCII, where this is the UTF-8 reading Go's string operations use). -/
def bytesToString (bs : List Nat) : String :=
  String.mk (bs.map Char.ofNat)

/-! ## SMTP session state machine (`smtp` package, `SMTPSession`)

One step of the session is `SMTPSession.processCommand` on one received
command line.  Collaborator calls whose outcome the handler consumes
(Redis/auth-manager rate limits, `storage.GetProject`, the quota check,
`StoreEmail`, `RecordEmailSent`, the TLS handshake, the DATA socket
reads) are supplied through `SmtpEnv`.  Replies are collected in send
order; `conn.Write` is assumed to succeed (an I/O error merely closes
the session). -/

/-- Go `SMTPState` from the source. -/
inductive SMTPState where
  | Greeting | Helo | Auth | Authenticated | Mail | Rcpt | Data | Quit
deriving DecidableEq, Repr

/-- The mutable per-session fields of `SMTPSession`. -/
structure Session where
  state : SMTPState
  authenticated : Bool
  project : Option AuthProject
  mailFrom : String
  rcptTo : List String
  data : String
deriving DecidableEq, Repr

/-- The session a fresh connection starts with (`handleConnection`). -/
def initialSession : Session :=
  { state := .Greeting, authenticated := false, project := none,
    mailFrom := "", rcptTo := [], data := "" }

/-- Server configuration (`smtp.Config` / the `Server` fields the session
reads).  `tlsAvailable` is `tlsConfig != nil`. -/
structure ServerCfg where
  requireAuth : Bool
  requireTLS : Bool
  tlsAvailable : Bool
deriving DecidableEq, Repr

/-- Go `storage.Project` — the fields `handleData` / `processEmail` read
from `storage.GetProject`. -/
structure StoreProject where
  id : String
  name : String
  status : String
deriving DecidableEq, Repr

/-- Go `storage.Email` — the record `processEmail` builds and hands to
`StoreEmail`.  The time-derived `ID`/`MessageID`/`SentAt` fields are
omitted (they are synthesized from the wall clock and no claim reads
them). -/
structure Email where
  projectID : String
  fromEmail : String
  toEmails : List String
  subject : String
  contentEnc : String
  size : Nat
  status : String
  attempts : Nat
deriving DecidableEq, Repr

/-- Collaborator outcomes for one command step, observed at the Go call
sites. -/
structure SmtpEnv where
  /-- Outcome of `bcrypt.CompareHashAndPassword(hash, pw)` (external). -/
  bcryptOK : String → String → Bool
  /-- The auth manager's project snapshot, in iteration order. -/
  projects : List AuthProject
  /-- Go `rateLimiter.CheckAuthAttempt(clientIP)` returned nil. -/
  authRateOk : Bool
  /-- Go `authManager.CheckRateLimit(projectID)` returned nil. -/
  projectRateOk : Bool
  /-- The client IP (`strings.Split(remoteAddr, ":")[0]`). -/
  clientIP : String
  /-- Go `storage.GetProject(id)`: `none` models a lookup error. -/
  getProject : String → Option StoreProject
  /-- Outcome of `rateLimiter.CheckEmailQuota(id, qpm, qd)`. -/
  quotaRes : QuotaDecision
  /-- Go `storage.StoreEmail` returned nil. -/
  storeOk : Bool
  /-- Go `rateLimiter.RecordEmailSent` returned nil. -/
  recordOk : Bool
  /-- The accumulated DATA bytes at the point the read loop found the
  `"\r\n.\r\n"` terminator (the loop imposes no size limit). -/
  msgData : String
  /-- The subject `processEmail` extracts from the content
  (`net/mail.ReadMessage` with the manual `Subject:`-scan fallback;
  stdlib parsing modelled as a parameter). -/
  subjectOf : String → String
  /-- The TLS handshake succeeded. -/
  tlsHandshakeOk : Bool

/-- The observable result of one `processCommand` step. -/
structure StepOut where
  sess : Session
  /-- Replies sent, in order (each written with a trailing CRLF; the
  EHLO capability block is one raw multi-line write). -/
  replies : List String
  /-- Go `StoreEmail` was invoked (with this record). -/
  storeAttempt : Option Email := none
  /-- Go `RecordEmailSent` was invoked. -/
  recordCalled : Bool := false
  /-- The Go code dereferenced `s.project` while it was nil (a run-time
  panic). -/
  nilDeref : Bool := false
  /-- The handler returned a non-nil error, so `handle()` closes the
  connection. -/
  closed : Bool := false
deriving Repr

/-- A reply-only step that leaves the session unchanged. -/
def replyOnly (sess : Session) (r : String) : StepOut :=
  { sess := sess, replies := [r] }

/-- Outcome of `processEmail`: `ok`, or the wrapped error it returns. -/
inductive ProcErr where
  | verifyFailed      -- "project verification failed"
  | notActive         -- "project is not active"
  | quotaExceeded     -- "quota exceeded: ..."
  | storeFailed       -- "failed to store email: ..."
deriving DecidableEq, Repr

/-- Result of `SMTPSession.processEmail`. -/
structure ProcOut where
  result : Option ProcErr      -- `none` = returned nil
  storeAttempt : Option Email := none
  recordCalled : Bool := false
  nilDeref : Bool := false
deriving Repr

/-- Go `SMTPSession.processEmail`: re-check the project's live status, check
the quota, build the email record, store it, and only after a successful
store record the quota usage; a `RecordEmailSent` failure is logged but
does not fail the message. -/
def processEmail (env : SmtpEnv) (sess : Session) : ProcOut :=
  match sess.project with
  | none => { result := some .verifyFailed, nilDeref := true }
  | some project =>
    match env.getProject project.id with
    | none => { result := some .verifyFailed }
    | some currentProject =>
      if currentProject.status ≠ "active" then
        { result := some .notActive }
      else if env.quotaRes ≠ .ok then
        { result := some .quotaExceeded }
      else
        let email : Email :=
          { projectID := project.id, fromEmail := sess.mailFrom,
            toEmails := sess.rcptTo,
            subject := env.subjectOf sess.data,
            contentEnc := sess.data, size := sess.data.length,
            status := "processed", attempts := 1 }
        if !env.storeOk then
          { result := some .storeFailed, storeAttempt := some email }
        else
          -- `RecordEmailSent` runs here; its error is only logged.
          let _ := env.recordOk
          { result := none, storeAttempt := some email,
            recordCalled := true }

/-- Go `SMTPSession.handleData`: sequence gate, live-status re-check, the
`354` prompt, the unbounded accumulation loop (its result is
`env.msgData`), then `processEmail`; any `processEmail` error is
answered `550 Transaction failed`. -/
def handleData (env : SmtpEnv) (sess : Session) : StepOut :=
  if sess.state ≠ .Rcpt then
    replyOnly sess "503 Bad sequence of commands"
  else
    match sess.project with
    | none => { sess := sess, replies := [], nilDeref := true }
    | some project =>
      match env.getProject project.id with
      | none => replyOnly sess "451 Temporary server error"
      | some currentProject =>
        if currentProject.status ≠ "active" then
          replyOnly sess "554 Transaction failed: Project not active"
        else
          let sess' := { sess with data := env.msgData }
          let pr := processEmail env sess'
          { sess := sess',
            replies := ["354 End data with <CR><LF>.<CR><LF>",
              if pr.result.isSome then "550 Transaction failed"
              else "250 OK: Message accepted"],
            storeAttempt := pr.storeAttempt,
            recordCalled := pr.recordCalled,
            nilDeref := pr.nilDeref }

/-- Go `SMTPSession.handleHelo`. -/
def handleHelo (cmd : String) (parts : List String) (sess : Session) :
    StepOut :=
  match parts with
  | _ :: arg :: _ =>
    let sess' := { sess with state := .Helo }
    if cmd = "EHLO" then
      { sess := sess',
        replies := ["250-mailpulse Hello " ++ arg ++ "\r\n" ++
          "250-AUTH PLAIN LOGIN\r\n250-STARTTLS\r\n250 SIZE 52428800\r\n"] }
    else
      { sess := sess', replies := ["250 mailpulse Hello " ++ arg] }
  | _ => replyOnly sess "501 Syntax error"

/-- Go `SMTPSession.handleAuthPlain`. -/
def handleAuthPlain (env : SmtpEnv) (parts : List String) (sess : Session) :
    StepOut :=
  if !env.authRateOk then
    replyOnly sess "421 Too many authentication attempts"
  else
    match parts with
    | _ :: _ :: b64 :: _ =>
      match b64Decode b64 with
      | none => replyOnly sess "535 Authentication failed"
      | some authData =>
        match splitOnNul authData with
        | [_, user, pass] =>
          let username := bytesToString user
          let password := bytesToString pass
          match ValidateAPIKey env.bcryptOK env.projects username password with
          | .error _ => replyOnly sess "535 Authentication failed"
          | .ok project =>
            if project.requireIPAllow &&
                !(isIPAllowed project env.clientIP) then
              replyOnly sess "535 IP not authorized"
            else if !env.projectRateOk then
              replyOnly sess "421 Rate limit exceeded"
            else
              { sess := { sess with
                    authenticated := true,
                    project := some project,
                    state := .Authenticated },
                replies := ["235 Authentication successful"] }
        | _ => replyOnly sess "535 Authentication failed"
    | _ => replyOnly sess "535 Authentication failed"

/-- Go `SMTPSession.handleAuth`. -/
def handleAuth (cfg : ServerCfg) (env : SmtpEnv) (parts : List String)
    (sess : Session) : StepOut :=
  if cfg.requireAuth && sess.authenticated then
    replyOnly sess "503 Already authenticated"
  else
    match parts with
    | _ :: mechanism :: _ =>
      if mechanism = "PLAIN" then handleAuthPlain env parts sess
      else if mechanism = "LOGIN" then
        replyOnly sess "504 LOGIN authentication not implemented yet"
      else replyOnly sess "504 Authentication mechanism not supported"
    | _ => replyOnly sess "501 Syntax error"

/-- Go `SMTPSession.handleStartTLS`: on success only the connection object
is replaced — the session state is left untouched; a handshake failure
is a returned error (the session closes). -/
def handleStartTLS (cfg : ServerCfg) (env : SmtpEnv) (sess : Session) :
    StepOut :=
  if !cfg.tlsAvailable then
    replyOnly sess "502 TLS not available"
  else if !env.tlsHandshakeOk then
    { sess := sess, replies := ["220 Ready to start TLS"], closed := true }
  else
    { sess := sess, replies := ["220 Ready to start TLS"] }

/-- Go `SMTPSession.handleMail`. -/
def handleMail (cfg : ServerCfg) (command : String) (sess : Session) :
    StepOut :=
  if cfg.requireAuth && !sess.authenticated then
    replyOnly sess "530 Authentication required"
  else
    match splitColon2 command with
    | none => replyOnly sess "501 Syntax error"
    | some (_, rest) =>
      { sess := { sess with
            mailFrom := trimSet rest ['<', '>', ' '],
            state := .Mail },
        replies := ["250 OK"] }

/-- Go `SMTPSession.handleRcpt`. -/
def handleRcpt (command : String) (sess : Session) : StepOut :=
  if sess.state ≠ .Mail ∧ sess.state ≠ .Rcpt then
    replyOnly sess "503 Bad sequence of commands"
  else
    match splitColon2 command with
    | none => replyOnly sess "501 Syntax error"
    | some (_, rest) =>
      { sess := { sess with
          rcptTo := sess.rcptTo ++ [trimSet rest ['<', '>', ' ']],
          state := .Rcpt },
        replies := ["250 OK"] }

/-- Go `SMTPSession.handleQuit`: replies `221` and returns an error so that
`handle()` closes the connection. -/
def handleQuit (sess : Session) : StepOut :=
  { sess := { sess with state := .Quit }, replies := ["221 Goodbye"],
    closed := true }

/-- Go `SMTPSession.handleReset`. -/
def handleReset (sess : Session) : StepOut :=
  { sess := { sess with
        mailFrom := "",
        rcptTo := [],
        data := "",
        state := .Helo },
    replies := ["250 OK"] }

/-- Go `SMTPSession.processCommand`: split the line into fields, uppercase
only the verb, and dispatch. -/
def processCommand (cfg : ServerCfg) (env : SmtpEnv) (command : String)
    (sess : Session) : StepOut :=
  match fields command with
  | [] => replyOnly sess "500 Command not recognized"
  | verb :: restParts =>
    let cmd := toUpperStr verb
    let parts := verb :: restParts
    if cmd = "HELO" ∨ cmd = "EHLO" then handleHelo cmd parts sess
    else if cmd = "AUTH" then handleAuth cfg env parts sess
    else if cmd = "STARTTLS" then handleStartTLS cfg env sess
    else if cmd = "MAIL" then handleMail cfg command sess
    else if cmd = "RCPT" then handleRcpt command sess
    else if cmd = "DATA" then handleData env sess
    else if cmd = "QUIT" then handleQuit sess
    else if cmd = "RSET" then handleReset sess
    else if cmd = "NOOP" then replyOnly sess "250 OK"
    else replyOnly sess "500 Command not recognized"

/-- One iteration of `SMTPSession.handle`: trim the received line and
process it. -/
def step (cfg : ServerCfg) (env : SmtpEnv) (command : String)
    (sess : Session) : StepOut :=
  processCommand cfg env (trimWS command) sess

/-- Run a sequence of commands, threading the session. -/
def runCmds (cfg : ServerCfg) (env : SmtpEnv) (sess : Session) :
    List String → Session
  | [] => sess
  | c :: rest => runCmds cfg env (step cfg env c sess).sess rest

/-- Sessions reachable from a fresh connection under a fixed server
configuration, by processing any command lines against any collaborator
outcomes. -/
inductive Reachable (cfg : ServerCfg) : Session → Prop where
  | init : Reachable cfg initialSession
  | step (env : SmtpEnv) (cmd : String) (sess : Session) :
      Reachable cfg sess → Reachable cfg (step cfg env cmd sess).sess

/-! ## Concrete fixtures

A project, server configurations and a collaborator environment used to
instantiate the theorems below on concrete runs. -/

/-- A concrete active project with credentials `mp_live_X` / bcrypt of
`"pw"` and the default quotas. -/
def apX : AuthProject :=
  { id := "p1"
    apiKey := "mp_live_X"
    apiKeyHash := "H(pw)"
    status := "active"
    quotaPerMinute := 10
    quotaDaily := 500
    requireIPAllow := false
    allowedIPs := [] }

/-- The stored (live) view of `apX`. -/
def spA : StoreProject := { id := "p1", name := "P", status := "active" }

/-- A server requiring authentication, with TLS available. -/
def cfgT : ServerCfg :=
  { requireAuth := true, requireTLS := false, tlsAvailable := true }

/-- The same server with `RequireAuth = false`. -/
def cfgF : ServerCfg := { cfgT with requireAuth := false }

/-- A collaborator environment in which every external call succeeds.
The bcrypt outcome parameter accepts exactly the stored hash of `apX`
against the password `"pw"`. -/
def envOK : SmtpEnv :=
  { bcryptOK := fun h w => h == "H(pw)" && w == "pw"
    projects := [apX]
    authRateOk := true
    projectRateOk := true
    clientIP := "1.2.3.4"
    getProject := fun _ => some spA
    quotaRes := .ok
    storeOk := true
    recordOk := true
    msgData := "Subject: hi\r\nbody\r\n.\r\n"
    subjectOf := fun _ => "hi"
    tlsHandshakeOk := true }

/-- An unauthenticated session that has sent EHLO. -/
def sessHelo : Session := { initialSession with state := .Helo }

/-- The session after EHLO, successful AUTH PLAIN, MAIL and one RCPT
(the state in which DATA is legal). -/
def sessRcpt : Session :=
  runCmds cfgT envOK initialSession
    ["EHLO c", "AUTH PLAIN AG1wX2xpdmVfWABQVw==", "MAIL FROM:<a@x>",
     "RCPT TO:<b@y>"]

/-! ## C7 — recipient list and content round trip through the store -/

/-- The pair of database values `StoreEmail` writes for one email's
recipient list and content: the `to_emails` text and the opaque
`content_enc` bytes. -/
def storeRow (toEmails : List String) (content : String) : String × String :=
  (storedToEmails toEmails, content)

/-- What `GetEmail` reconstructs from those stored values: `to_emails`
decoded by `parseArrayString`, `content_enc` scanned back unchanged. -/
def getRow (r : String × String) : List String × String :=
  (parseArrayString r.1, r.2)

/-- Auxiliary: `joinStrings` of a list starting with two elements is a
non-empty string (it contains at least the separator). -/
lemma joinStrings_two_ne_empty (a b : String) (rest : List String) :
    joinStrings (a :: b :: rest) "," ≠ "" := by
  have key : ∀ (l : List String) (acc : String),
      acc.length ≤ (l.foldl (fun acc s => acc ++ "," ++ s) acc).length := by
    intro l
    induction l with
    | nil => intro acc; simp
    | cons x xs ih =>
      intro acc
      have hstep : acc.length ≤ (acc ++ "," ++ x).length := by
        have hc : ("," : String).length = 1 := rfl
        simp [String.length_append, hc]
        omega
      exact le_trans hstep (ih (acc ++ "," ++ x))
  intro hcontra
  have h1 : joinStrings (a :: b :: rest) "," =
      rest.foldl (fun acc s => acc ++ "," ++ s) (a ++ "," ++ b) := by
    simp [joinStrings]
  have h2 := key rest (a ++ "," ++ b)
  rw [← h1, hcontra] at h2
  have h3 : (a ++ "," ++ b).length = a.length + 1 + b.length := by
    have hc : ("," : String).length = 1 := rfl
    simp [String.length_append, hc]
  have h4 : ("" : String).length = 0 := rfl
  omega

/-- Auxiliary: stripping the surrounding braces recovers a non-empty
payload. -/
lemma parseArrayString_wrap (j : String) (hj : j ≠ "") :
    parseArrayString ("\x7b" ++ j ++ "\x7d") = [j] := by
  have hdata : ("\x7b" ++ j ++ "\x7d" : String).data = '{' :: (j.data ++ ['}']) := by
    simp [String.data_append]
  have hj' : j.data ≠ [] := by
    intro h
    apply hj
    cases j with
    | mk d => simp at h; simp [h]
  have hne1 : ("\x7b" ++ j ++ "\x7d" : String) ≠ "" := by
    intro h
    have := congrArg String.data h
    rw [hdata] at this
    simp at this
  have hne2 : ("\x7b" ++ j ++ "\x7d" : String) ≠ "\x7b\x7d" := by
    intro h
    have := congrArg String.data h
    rw [hdata] at this
    have : (j.data ++ ['}'] : List Char) = ['}'] := by
      simpa using this
    have hlen := congrArg List.length this
    simp at hlen
    exact hj' (List.length_eq_zero.mp hlen)
  have hstep : (("\x7b" ++ j ++ "\x7d" : String).data.drop 1).take
      (("\x7b" ++ j ++ "\x7d" : String).data.length - 2) = j.data := by
    rw [hdata]
    have hd : (('{' :: (j.data ++ ['}'])).drop 1) = j.data ++ ['}'] := rfl
    have hl : ('{' :: (j.data ++ ['}'])).length - 2 = j.data.length := by
      simp
    rw [hd, hl]
    exact List.take_left' rfl
  unfold parseArrayString
  rw [if_neg (by simp [hne1, hne2]), hstep]

/-- C7, counterexample: storing a two-recipient list `["a@x", "b@y"]`
and reading it back yields the single-element list `["a@x,b@y"]`, not
the original list — the recipient list does not round-trip
element-for-element. -/
theorem C7_roundtrip_counterexample :
    getRow (storeRow ["a@x", "b@y"] "body") =
      (["a@x,b@y"], "body") ∧
    (["a@x,b@y"] : List String) ≠ ["a@x", "b@y"] := by
  constructor
  · decide
  · decide

/-- C7, amended: the content bytes always round-trip; the empty
recipient list and any single non-empty recipient round-trip; a list of
two or more recipients is read back as one element holding the
comma-join of the addresses. -/
theorem C7_roundtrip_amended (toEmails : List String) (content : String) :
    (getRow (storeRow toEmails content)).2 = content ∧
    (toEmails = [] → (getRow (storeRow toEmails content)).1 = []) ∧
    (∀ a, toEmails = [a] → a ≠ "" →
      (getRow (storeRow toEmails content)).1 = [a]) ∧
    (∀ a b rest, toEmails = a :: b :: rest →
      (getRow (storeRow toEmails content)).1 =
        [joinStrings toEmails ","]) := by
  refine ⟨rfl, ?_, ?_, ?_⟩
  · rintro rfl
    rfl
  · rintro a rfl ha
    have : joinStrings [a] "," = a := by simp [joinStrings]
    simp only [getRow, storeRow, storedToEmails, this]
    exact parseArrayString_wrap a ha
  · rintro a b rest rfl
    simp only [getRow, storeRow, storedToEmails]
    exact parseArrayString_wrap _ (joinStrings_two_ne_empty a b rest)

/-- C7, witness: the amended statement instantiated at a single
recipient and at a two-recipient list. -/
theorem C7_roundtrip_amended_witness :
    (getRow (storeRow ["a@x"] "body")).1 = ["a@x"] ∧
    (getRow (storeRow ["a@x", "b@y"] "body")).1 =
      [joinStrings ["a@x", "b@y"] ","] :=
  ⟨(C7_roundtrip_amended ["a@x"] "body").2.2.1 "a@x" rfl (by decide),
   (C7_roundtrip_amended ["a@x", "b@y"] "body").2.2.2 "a@x" "b@y" [] rfl⟩

/-! ## C10 — nil project dereference when authentication is disabled -/

/-- C10: with `RequireAuth = false`, the plain sequence HELO, MAIL,
RCPT, DATA — no AUTH — reaches `handleData` with no authenticated
project, and its project-status re-check dereferences the nil project
reference (`s.storage.GetProject(s.project.ID)` with `s.project == nil`,
a run-time panic in Go). -/
theorem C10_nil_project_deref :
    (step cfgF envOK "DATA"
      (runCmds cfgF envOK initialSession
        ["HELO c", "MAIL FROM:<a@x>", "RCPT TO:<b@y>"])).nilDeref = true := by
  decide

/-! ## C1 — sliding window versus fixed calendar buckets -/

/-- Auxiliary: for send records that do not lie in the future, the
nested day/minute filter of the in-memory limiter counts exactly the
trailing-60-second window. -/
lemma inMem_minute_eq_sliding (sends : List Nat) (now : Nat)
    (h : ∀ s ∈ sends, s ≤ now) :
    ((sends.filter (fun s => now < s + 86400)).filter
        (fun s => now < s + 60)).length =
      slidingWindowCount sends now 60 := by
  unfold slidingWindowCount
  rw [List.filter_filter]
  apply congrArg
  apply List.filter_congr
  intro a ha
  have hle : a ≤ now := h a ha
  by_cases h60 : now < a + 60
  · have h86400 : now < a + 86400 := by omega
    simp [h60, h86400, hle]
  · simp [h60]

/-- Auxiliary: the day filter of the in-memory limiter counts exactly
the trailing-24-hour window. -/
lemma inMem_day_eq_sliding (sends : List Nat) (now : Nat)
    (h : ∀ s ∈ sends, s ≤ now) :
    (sends.filter (fun s => now < s + 86400)).length =
      slidingWindowCount sends now 86400 := by
  unfold slidingWindowCount
  apply congrArg
  apply List.filter_congr
  intro a ha
  have hle : a ≤ now := h a ha
  by_cases hd : now < a + 86400 <;> simp [hd, hle]

/-- C1, counterexample: the Redis implementation of `CheckEmailQuota`
does not count the trailing 60 seconds.  With `quota_per_minute = 2` and
three sends already recorded at t = 58, 59, 60 — all inside the trailing
60-second window of t = 61 — the check at t = 61 still admits, because
its fixed calendar-minute bucket (`now.Unix()/60`) rolled over at t = 60:
the two bursts astride the rollover together exceed the limit. -/
theorem C1_sliding_counterexample :
    redisCheckEmailQuota [58, 59, 60] 61 2 500 = .ok ∧
    slidingWindowCount [58, 59, 60] 61 60 = 3 := by
  decide

/-- C1, amended: `InMemoryRateLimiter.CheckEmailQuota` does behave as a
sliding window — for send records not in the future it admits exactly
when the trailing-60-second count is below the per-minute limit and the
trailing-24-hour count is below the daily limit — but
`RedisRateLimiter.CheckEmailQuota` counts fixed calendar-minute and
calendar-day buckets, and bursts on either side of a minute rollover can
together exceed the per-minute limit. -/
theorem C1_quota_window_amended (sends : List Nat)
    (now quotaPerMinute quotaDaily : Nat) (h : ∀ s ∈ sends, s ≤ now) :
    ((inMemCheckEmailQuota sends now quotaPerMinute quotaDaily).1 = .ok ↔
      slidingWindowCount sends now 60 < quotaPerMinute ∧
      slidingWindowCount sends now 86400 < quotaDaily) ∧
    redisCheckEmailQuota [58, 59, 60] 61 2 500 = .ok := by
  refine ⟨?_, by decide⟩
  unfold inMemCheckEmailQuota
  dsimp only
  rw [inMem_minute_eq_sliding sends now h, inMem_day_eq_sliding sends now h]
  by_cases h1 : quotaPerMinute ≤ slidingWindowCount sends now 60
  · simp [h1]
  · by_cases h2 : quotaDaily ≤ slidingWindowCount sends now 86400
    · simp [h1, h2]
    · simp [h1, h2]
      omega

/-- C1, witness: the amended statement at one recorded send (t = 100)
and a check at t = 130 with quotas 2/minute, 3/day. -/
theorem C1_quota_window_amended_witness :
    (∀ s ∈ [100], s ≤ 130) ∧
    (((inMemCheckEmailQuota [100] 130 2 3).1 = .ok ↔
      slidingWindowCount [100] 130 60 < 2 ∧
      slidingWindowCount [100] 130 86400 < 3) ∧
    redisCheckEmailQuota [58, 59, 60] 61 2 500 = .ok) :=
  ⟨by decide, C1_quota_window_amended [100] 130 2 3 (by decide)⟩

/-! ## C6 and C9 — credential validation -/

/-- Auxiliary: `ValidateAPIKey` is decided by the first project whose
stored API key matches the username case-insensitively, exactly as
`List.find?` locates it. -/
lemma validateAPIKey_find (bcryptOK : String → String → Bool)
    (projects : List AuthProject) (username password : String)
    (p : AuthProject)
    (hfind : projects.find? (fun q => eqFold q.apiKey username) = some p) :
    ValidateAPIKey bcryptOK projects username password =
      (if p.apiKeyHash ≠ "" &&
          !(bcryptOK p.apiKeyHash (toLowerStr password)) then
        .error .invalidPassword
      else if p.status ≠ "active" then .error .notActive
      else .ok p) := by
  induction projects with
  | nil => simp [List.find?] at hfind
  | cons q rest ih =>
    rw [List.find?] at hfind
    unfold ValidateAPIKey
    by_cases hq : eqFold q.apiKey username
    · rw [hq] at hfind
      simp at hfind
      subst hfind
      simp [hq]
    · have hq' : eqFold q.apiKey username = false := by
        simp [Bool.not_eq_true] at hq
        exact hq
      rw [hq'] at hfind
      simp at hfind
      rw [if_neg (by simp [hq'])]
      exact ih hfind

/-- C6: credential validation matches the username against the stored
API key case-insensitively (the first `EqualFold` match decides) and
compares the stored bcrypt hash against the lowercased supplied
password; consequently any password with the same lowercase form — in
particular any letter-case variant the client sends — authenticates
successfully against an active project. -/
theorem C6_case_insensitive_auth (bcryptOK : String → String → Bool)
    (projects : List AuthProject) (username password password2 : String)
    (p : AuthProject)
    (hfind : projects.find? (fun q => eqFold q.apiKey username) = some p)
    (hhash : bcryptOK p.apiKeyHash (toLowerStr password) = true)
    (hact : p.status = "active")
    (hlow : toLowerStr password2 = toLowerStr password) :
    ValidateAPIKey bcryptOK projects username password = .ok p ∧
    ValidateAPIKey bcryptOK projects username password2 = .ok p := by
  constructor
  · rw [validateAPIKey_find bcryptOK projects username password p hfind]
    simp [hhash, hact]
  · rw [validateAPIKey_find bcryptOK projects username password2 p hfind]
    simp [hlow, hhash, hact]

/-- C6, witness: the stored key `mp_live_X` (hash of `"password"`,
active) authenticates the username `MP_LIVE_x` with the password sent
as `PASSWORD`. -/
theorem C6_case_insensitive_auth_witness :
    ValidateAPIKey (fun h w => h == "H" && w == "password")
      [{ id := "p1", apiKey := "mp_live_X", apiKeyHash := "H",
         status := "active", quotaPerMinute := 10, quotaDaily := 500,
         requireIPAllow := false, allowedIPs := [] }]
      "MP_LIVE_x" "PASSWORD" =
      .ok { id := "p1", apiKey := "mp_live_X", apiKeyHash := "H",
            status := "active", quotaPerMinute := 10, quotaDaily := 500,
            requireIPAllow := false, allowedIPs := [] } :=
  (C6_case_insensitive_auth (fun h w => h == "H" && w == "password")
    [{ id := "p1", apiKey := "mp_live_X", apiKeyHash := "H",
       status := "active", quotaPerMinute := 10, quotaDaily := 500,
       requireIPAllow := false, allowedIPs := [] }]
    "MP_LIVE_x" "password" "PASSWORD" _ (by decide) (by decide) rfl
    (by decide)).2

/-- C9: when the matched project's stored password hash is the empty
string and the project is active, `ValidateAPIKey` skips the bcrypt
comparison entirely — it succeeds for every supplied password, and its
result is independent of the password argument. -/
theorem C9_empty_hash_no_password (bcryptOK : String → String → Bool)
    (projects : List AuthProject) (username password password2 : String)
    (p : AuthProject)
    (hfind : projects.find? (fun q => eqFold q.apiKey username) = some p)
    (hhash : p.apiKeyHash = "")
    (hact : p.status = "active") :
    ValidateAPIKey bcryptOK projects username password = .ok p ∧
    ValidateAPIKey bcryptOK projects username password =
      ValidateAPIKey bcryptOK projects username password2 := by
  have h1 := validateAPIKey_find bcryptOK projects username password p hfind
  have h2 := validateAPIKey_find bcryptOK projects username password2 p hfind
  rw [h1, h2]
  simp [hhash, hact]

/-- C9, witness: an active project with an empty stored hash accepts the
key `mp_live_X` under two unrelated passwords, with identical results,
even when the bcrypt outcome parameter rejects everything. -/
theorem C9_empty_hash_no_password_witness :
    ValidateAPIKey (fun _ _ => false)
      [{ id := "p1", apiKey := "mp_live_X", apiKeyHash := "",
         status := "active", quotaPerMinute := 10, quotaDaily := 500,
         requireIPAllow := false, allowedIPs := [] }]
      "mp_live_X" "anything" =
      .ok { id := "p1", apiKey := "mp_live_X", apiKeyHash := "",
            status := "active", quotaPerMinute := 10, quotaDaily := 500,
            requireIPAllow := false, allowedIPs := [] } ∧
    ValidateAPIKey (fun _ _ => false)
      [{ id := "p1", apiKey := "mp_live_X", apiKeyHash := "",
         status := "active", quotaPerMinute := 10, quotaDaily := 500,
         requireIPAllow := false, allowedIPs := [] }]
      "mp_live_X" "anything" =
    ValidateAPIKey (fun _ _ => false)
      [{ id := "p1", apiKey := "mp_live_X", apiKeyHash := "",
         status := "active", quotaPerMinute := 10, quotaDaily := 500,
         requireIPAllow := false, allowedIPs := [] }]
      "mp_live_X" "completely-different" :=
  C9_empty_hash_no_password (fun _ _ => false)
    [{ id := "p1", apiKey := "mp_live_X", apiKeyHash := "",
       status := "active", quotaPerMinute := 10, quotaDaily := 500,
       requireIPAllow := false, allowedIPs := [] }]
    "mp_live_X" "anything" "completely-different" _ (by decide) rfl rfl

/-! ## C2 — quota commit strictly after a successful durable store -/

/-- C2: in `processEmail`, the quota commit (`RecordEmailSent`) is
invoked only when `StoreEmail` was invoked and returned success; when
`StoreEmail` fails (or any earlier gate fails) there is no quota commit
and processing returns an error; and the result never depends on the
`RecordEmailSent` outcome — a commit failure after a successful store
does not fail the message. -/
theorem C2_commit_after_store (env : SmtpEnv) (sess : Session) :
    ((processEmail env sess).recordCalled = true →
      env.storeOk = true ∧ (processEmail env sess).storeAttempt.isSome) ∧
    (env.storeOk = false →
      (processEmail env sess).recordCalled = false ∧
      (processEmail env sess).result.isSome) ∧
    ((processEmail { env with recordOk := false } sess).result =
      (processEmail { env with recordOk := true } sess).result) := by
  obtain ⟨bc, pj, ar, prk, ci, gp, qr, so, ro, md, sj, th⟩ := env
  obtain ⟨st, au, pr, mf, rc, da⟩ := sess
  cases pr with
  | none => simp [processEmail]
  | some project =>
    cases hg : gp project.id with
    | none => simp [processEmail, hg]
    | some currentProject =>
      by_cases hs : currentProject.status = "active"
      · by_cases hq : qr = QuotaDecision.ok
        · cases so <;> simp [processEmail, hg, hs, hq]
        · simp [processEmail, hg, hs, hq]
      · simp [processEmail, hg, hs]

/-- C2, witness: with the store failing, the commit is skipped and the
processing result is an error, at the fully authenticated session
`sessRcpt`. -/
theorem C2_commit_after_store_witness :
    (processEmail { envOK with storeOk := false } sessRcpt).recordCalled
      = false ∧
    (processEmail { envOK with storeOk := false }
      sessRcpt).result.isSome :=
  (C2_commit_after_store { envOK with storeOk := false } sessRcpt).2.1 rfl

/-! ## C3 — reply codes for end-of-data failures -/

/-- C3, counterexample: a quota-admission rejection at end-of-data is
answered `550 Transaction failed` — not a 452/421-class reply — and a
store-insert failure is likewise answered `550`, not `451`: every
`processEmail` error funnels into the single `550` branch of
`handleData`. -/
theorem C3_reply_code_counterexample :
    (step cfgT { envOK with quotaRes := .minuteExceeded 10 10 } "DATA"
        sessRcpt).replies =
      ["354 End data with <CR><LF>.<CR><LF>", "550 Transaction failed"] ∧
    (step cfgT { envOK with storeOk := false } "DATA" sessRcpt).replies =
      ["354 End data with <CR><LF>.<CR><LF>", "550 Transaction failed"] ∧
    ("550 Transaction failed" : String) ≠ "452 Quota exceeded" ∧
    ("550 Transaction failed" : String) ≠ "451 Temporary server error" := by
  refine ⟨by decide, by decide, by decide, by decide⟩

/-- C3, amended: when end-of-data processing fails — whether from the
quota-admission rejection or from a store-insert failure — the session
answers `550 Transaction failed` after the `354` prompt; the `451`
temporary error is produced only when the project lookup before the
`354` prompt fails.  No 452/421-class reply occurs at end-of-data. -/
theorem C3_reply_code_amended (env : SmtpEnv) (sess : Session)
    (p : AuthProject) (hst : sess.state = .Rcpt)
    (hpr : sess.project = some p) :
    (∀ sp, env.getProject p.id = some sp → sp.status = "active" →
      (env.quotaRes ≠ .ok ∨ env.storeOk = false) →
      (handleData env sess).replies =
        ["354 End data with <CR><LF>.<CR><LF>", "550 Transaction failed"]) ∧
    (env.getProject p.id = none →
      (handleData env sess).replies = ["451 Temporary server error"]) := by
  obtain ⟨st, au, pr, mf, rc, da⟩ := sess
  simp only at hst hpr
  subst hst
  subst hpr
  constructor
  · intro sp hg hact hfail
    rcases hfail with hq | hs
    · by_cases hsOk : env.storeOk
      · simp [handleData, processEmail, hg, hact, hq, hsOk]
      · simp [handleData, processEmail, hg, hact, hq, hsOk]
    · by_cases hq : env.quotaRes = QuotaDecision.ok
      · simp [handleData, processEmail, hg, hact, hq, hs]
      · simp [handleData, processEmail, hg, hact, hq, hs]
  · intro hg
    simp [handleData, replyOnly, hg]

/-- C3, witness: the amended statement at the concrete session
`sessRcpt` with the quota rejected, and with the project lookup
failing. -/
theorem C3_reply_code_amended_witness :
    (handleData { envOK with quotaRes := .minuteExceeded 10 10 }
        sessRcpt).replies =
      ["354 End data with <CR><LF>.<CR><LF>", "550 Transaction failed"] ∧
    (handleData { envOK with getProject := fun _ => none }
        sessRcpt).replies = ["451 Temporary server error"] :=
  ⟨(C3_reply_code_amended { envOK with quotaRes := .minuteExceeded 10 10 }
      sessRcpt apX (by decide) (by decide)).1 spA (by decide) rfl
      (Or.inl (by decide)),
   (C3_reply_code_amended { envOK with getProject := fun _ => none }
      sessRcpt apX (by decide) (by decide)).2 rfl⟩

/-! ## C5 — the advertised 50 MB size cap is not enforced -/

/-- C5: `handleData` contains no size check at all — for every
accumulated DATA content, of any length, the message is stored and the
session replies `250 OK: Message accepted`; no `552` reply exists on
this path.  In particular a message of 52,428,801 bytes (one over the
advertised `SIZE 52428800`) is accepted and stored rather than rejected. -/
theorem C5_no_size_limit (env : SmtpEnv) (sess : Session)
    (p : AuthProject) (sp : StoreProject) (hst : sess.state = .Rcpt)
    (hpr : sess.project = some p) (hg : env.getProject p.id = some sp)
    (hact : sp.status = "active") (hq : env.quotaRes = .ok)
    (hs : env.storeOk = true) :
    (handleData env sess).replies =
      ["354 End data with <CR><LF>.<CR><LF>", "250 OK: Message accepted"] ∧
    (handleData env sess).storeAttempt =
      some { projectID := p.id, fromEmail := sess.mailFrom,
             toEmails := sess.rcptTo,
             subject := env.subjectOf env.msgData,
             contentEnc := env.msgData, size := env.msgData.length,
             status := "processed", attempts := 1 } := by
  obtain ⟨st, au, pr, mf, rc, da⟩ := sess
  simp only at hst hpr
  subst hst
  subst hpr
  simp [handleData, processEmail, hg, hact, hq, hs]

/-- C5, witness: a 52,428,801-byte message — one byte over the
advertised 50 MB cap — is accepted and stored with its full size; the
advertised limit `52428800` is strictly below the accepted size. -/
theorem C5_no_size_limit_witness :
    (handleData
      { envOK with msgData := String.mk (List.replicate 52428801 'a') }
      sessRcpt).replies =
      ["354 End data with <CR><LF>.<CR><LF>", "250 OK: Message accepted"] ∧
    (String.mk (List.replicate 52428801 'a')).length = 52428801 ∧
    52428800 < 52428801 :=
  ⟨(C5_no_size_limit
      { envOK with msgData := String.mk (List.replicate 52428801 'a') }
      sessRcpt apX spA (by decide) (by decide) rfl rfl rfl rfl).1,
   by
     show (List.replicate 52428801 'a').length = 52428801
     rw [List.length_replicate],
   by omega⟩

/-! ## C8 — STARTTLS does not reset the session -/

/-- C8, counterexample: after a successful STARTTLS from the post-EHLO
state, a non-EHLO command (NOOP) is answered `250 OK`, not `503` — no
fresh EHLO is required. -/
theorem C8_starttls_counterexample :
    (step cfgT envOK "NOOP"
      (step cfgT envOK "STARTTLS" sessHelo).sess).replies = ["250 OK"] ∧
    (["250 OK"] : List String) ≠ ["503 Bad sequence of commands"] := by
  refine ⟨by decide, by decide⟩

/-- C8, amended: a successful STARTTLS replaces only the connection
object — the session record (protocol state, authentication flag,
project, envelope, data) is unchanged, no EHLO state is discarded, and
every subsequent command is processed exactly as it would have been
without the STARTTLS. -/
theorem C8_starttls_amended (cfg : ServerCfg) (env : SmtpEnv)
    (sess : Session) (htls : cfg.tlsAvailable = true)
    (hhs : env.tlsHandshakeOk = true) :
    (step cfg env "STARTTLS" sess).sess = sess ∧
    (step cfg env "STARTTLS" sess).replies = ["220 Ready to start TLS"] ∧
    (step cfg env "STARTTLS" sess).closed = false ∧
    ∀ (env2 : SmtpEnv) (cmd : String),
      step cfg env2 cmd (step cfg env "STARTTLS" sess).sess =
        step cfg env2 cmd sess := by
  have hdispatch : step cfg env "STARTTLS" sess =
      handleStartTLS cfg env sess := rfl
  have hout : handleStartTLS cfg env sess =
      { sess := sess, replies := ["220 Ready to start TLS"] } := by
    unfold handleStartTLS
    rw [if_neg (by simp [htls]), if_neg (by simp [hhs])]
  rw [hdispatch, hout]
  exact ⟨rfl, rfl, rfl, fun _ _ => rfl⟩

/-- C8, witness: the amended statement at the post-EHLO session under
the all-success environment. -/
theorem C8_starttls_amended_witness :
    (step cfgT envOK "STARTTLS" sessHelo).sess = sessHelo ∧
    (step cfgT envOK "STARTTLS" sessHelo).replies =
      ["220 Ready to start TLS"] ∧
    (step cfgT envOK "STARTTLS" sessHelo).closed = false ∧
    ∀ (env2 : SmtpEnv) (cmd : String),
      step cfgT env2 cmd (step cfgT envOK "STARTTLS" sessHelo).sess =
        step cfgT env2 cmd sessHelo :=
  C8_starttls_amended cfgT envOK sessHelo rfl rfl

/-! ## C4 — replies to MAIL, RCPT, DATA before authentication

The invariant behind the amended claim: with authentication required, an
unauthenticated session can only be in the `Greeting`, `Helo` or `Quit`
state, so RCPT and DATA fail their sequence gates (`503`) rather than an
authentication gate (`530`). -/

/-- Auxiliary: `handleHelo` leaves the session unchanged or moves it to
the `Helo` state (never touching the authentication flag). -/
lemma handleHelo_sess (cmd : String) (parts : List String)
    (sess : Session) :
    (handleHelo cmd parts sess).sess = sess ∨
    (handleHelo cmd parts sess).sess = { sess with state := .Helo } := by
  unfold handleHelo
  repeat' split
  all_goals first
    | exact Or.inl rfl
    | exact Or.inr rfl

/-- Auxiliary: `handleAuthPlain` leaves the session unchanged except on
the success path, where the authentication flag becomes true. -/
lemma handleAuthPlain_sess (env : SmtpEnv) (parts : List String)
    (sess : Session) :
    (handleAuthPlain env parts sess).sess = sess ∨
    (handleAuthPlain env parts sess).sess.authenticated = true := by
  unfold handleAuthPlain
  dsimp only
  repeat' split
  all_goals first
    | exact Or.inl rfl
    | exact Or.inr rfl

/-- Auxiliary: `handleAuth` leaves the session unchanged except on the
successful PLAIN path. -/
lemma handleAuth_sess (cfg : ServerCfg) (env : SmtpEnv)
    (parts : List String) (sess : Session) :
    (handleAuth cfg env parts sess).sess = sess ∨
    (handleAuth cfg env parts sess).sess.authenticated = true := by
  unfold handleAuth
  repeat' split
  all_goals first
    | exact Or.inl rfl
    | exact Or.inr rfl
    | exact handleAuthPlain_sess _ _ _

/-- Auxiliary: `handleStartTLS` never changes the session record. -/
lemma handleStartTLS_sess (cfg : ServerCfg) (env : SmtpEnv)
    (sess : Session) : (handleStartTLS cfg env sess).sess = sess := by
  unfold handleStartTLS
  repeat' split
  all_goals rfl

/-- Auxiliary: `handleMail` never changes the authentication flag. -/
lemma handleMail_auth (cfg : ServerCfg) (command : String)
    (sess : Session) :
    (handleMail cfg command sess).sess.authenticated =
      sess.authenticated := by
  unfold handleMail
  repeat' split
  all_goals rfl

/-- Auxiliary: with authentication required and the session not
authenticated, `handleMail` answers `530 Authentication required`. -/
lemma handleMail_noauth (cfg : ServerCfg) (command : String)
    (sess : Session) (hreq : cfg.requireAuth = true)
    (hna : sess.authenticated = false) :
    handleMail cfg command sess =
      replyOnly sess "530 Authentication required" := by
  unfold handleMail
  rw [hreq, hna]
  rfl

/-- Auxiliary: `handleRcpt` never changes the authentication flag. -/
lemma handleRcpt_auth (command : String) (sess : Session) :
    (handleRcpt command sess).sess.authenticated = sess.authenticated := by
  unfold handleRcpt
  repeat' split
  all_goals rfl

/-- Auxiliary: outside the `Mail` and `Rcpt` states, `handleRcpt`
answers `503 Bad sequence of commands`. -/
lemma handleRcpt_badseq (command : String) (sess : Session)
    (h1 : sess.state ≠ .Mail) (h2 : sess.state ≠ .Rcpt) :
    handleRcpt command sess =
      replyOnly sess "503 Bad sequence of commands" := by
  unfold handleRcpt
  rw [if_pos ⟨h1, h2⟩]

/-- Auxiliary: `handleData` never changes the authentication flag. -/
lemma handleData_auth (env : SmtpEnv) (sess : Session) :
    (handleData env sess).sess.authenticated = sess.authenticated := by
  unfold handleData
  repeat' split
  all_goals rfl

/-- Auxiliary: outside the `Rcpt` state, `handleData` answers
`503 Bad sequence of commands`. -/
lemma handleData_badseq (env : SmtpEnv) (sess : Session)
    (h : sess.state ≠ .Rcpt) :
    handleData env sess =
      replyOnly sess "503 Bad sequence of commands" := by
  unfold handleData
  rw [if_pos h]

/-- Auxiliary: one step preserves the pre-authentication state
invariant (with authentication required, an unauthenticated session is
in `Greeting`, `Helo` or `Quit`). -/
lemma step_preserves_preAuth (cfg : ServerCfg) (env : SmtpEnv)
    (cmd : String) (sess : Session) (hreq : cfg.requireAuth = true)
    (hinv : sess.authenticated = false →
      sess.state = .Greeting ∨ sess.state = .Helo ∨ sess.state = .Quit) :
    (step cfg env cmd sess).sess.authenticated = false →
    (step cfg env cmd sess).sess.state = .Greeting ∨
    (step cfg env cmd sess).sess.state = .Helo ∨
    (step cfg env cmd sess).sess.state = .Quit := by
  unfold step processCommand
  generalize fields (trimWS cmd) = fs
  cases fs with
  | nil => exact hinv
  | cons verb restParts =>
    dsimp only
    split_ifs with h1 h2 h3 h4 h5 h6 h7 h8 h9
    · -- HELO/EHLO
      rcases handleHelo_sess (toUpperStr verb) (verb :: restParts) sess
        with h | h
      · rw [h]; exact hinv
      · rw [h]; intro _; right; left; rfl
    · -- AUTH
      rcases handleAuth_sess cfg env (verb :: restParts) sess with h | h
      · rw [h]; exact hinv
      · intro hfalse; rw [h] at hfalse; cases hfalse
    · -- STARTTLS
      rw [handleStartTLS_sess]; exact hinv
    · -- MAIL
      cases hauth : sess.authenticated with
      | true =>
        intro hfalse
        rw [handleMail_auth, hauth] at hfalse
        cases hfalse
      | false =>
        rw [handleMail_noauth cfg (trimWS cmd) sess hreq hauth]
        exact hinv
    · -- RCPT
      cases hauth : sess.authenticated with
      | true =>
        intro hfalse
        rw [handleRcpt_auth, hauth] at hfalse
        cases hfalse
      | false =>
        have hstates := hinv hauth
        have h1 : sess.state ≠ .Mail := by
          rcases hstates with h | h | h <;> rw [h] <;> intro hc <;>
            cases hc
        have h2 : sess.state ≠ .Rcpt := by
          rcases hstates with h | h | h <;> rw [h] <;> intro hc <;>
            cases hc
        rw [handleRcpt_badseq (trimWS cmd) sess h1 h2]
        exact hinv
    · -- DATA
      cases hauth : sess.authenticated with
      | true =>
        intro hfalse
        rw [handleData_auth, hauth] at hfalse
        cases hfalse
      | false =>
        have hstates := hinv hauth
        have h1 : sess.state ≠ .Rcpt := by
          rcases hstates with h | h | h <;> rw [h] <;> intro hc <;>
            cases hc
        rw [handleData_badseq env sess h1]
        exact hinv
    · -- QUIT
      intro _; right; right; rfl
    · -- RSET
      intro _; right; left; rfl
    · -- NOOP
      exact hinv
    · -- unknown
      exact hinv

/-- Auxiliary: the pre-authentication state invariant holds in every
reachable session when authentication is required. -/
lemma reachable_preAuth (cfg : ServerCfg) (sess : Session)
    (hreq : cfg.requireAuth = true) (hr : Reachable cfg sess) :
    sess.authenticated = false →
    sess.state = .Greeting ∨ sess.state = .Helo ∨ sess.state = .Quit := by
  induction hr with
  | init => intro _; left; rfl
  | step env cmd s _ ih =>
    exact step_preserves_preAuth cfg env cmd s hreq ih

/-- C4, counterexample: in an unauthenticated post-EHLO session (with
authentication required), RCPT and DATA are answered
`503 Bad sequence of commands`, not `530 Authentication required` —
their handlers check the protocol sequence before any authentication
gate. -/
theorem C4_preauth_counterexample :
    (step cfgT envOK "RCPT TO:<b@y>"
      (step cfgT envOK "EHLO c" initialSession).sess).replies =
      ["503 Bad sequence of commands"] ∧
    (step cfgT envOK "DATA"
      (step cfgT envOK "EHLO c" initialSession).sess).replies =
      ["503 Bad sequence of commands"] ∧
    (["503 Bad sequence of commands"] : List String) ≠
      ["530 Authentication required"] := by
  refine ⟨by decide, by decide, by decide⟩

/-- C4, amended: with authentication required, before successful AUTH a
MAIL command is answered `530 Authentication required`, but RCPT and
DATA are answered `503 Bad sequence of commands`: an unauthenticated
reachable session is never in the `Mail` or `Rcpt` state, so those
commands fail their sequence gate before any authentication check. -/
theorem C4_preauth_replies_amended (cfg : ServerCfg) (env : SmtpEnv)
    (sess : Session) (hreq : cfg.requireAuth = true)
    (hr : Reachable cfg sess) (hna : sess.authenticated = false) :
    ∀ cmd verb restParts, fields (trimWS cmd) = verb :: restParts →
      (toUpperStr verb = "MAIL" →
        (step cfg env cmd sess).replies =
          ["530 Authentication required"]) ∧
      (toUpperStr verb = "RCPT" →
        (step cfg env cmd sess).replies =
          ["503 Bad sequence of commands"]) ∧
      (toUpperStr verb = "DATA" →
        (step cfg env cmd sess).replies =
          ["503 Bad sequence of commands"]) := by
  have hstates := reachable_preAuth cfg sess hreq hr hna
  have hsMail : sess.state ≠ .Mail := by
    rcases hstates with h | h | h <;> rw [h] <;> intro hc <;> cases hc
  have hsRcpt : sess.state ≠ .Rcpt := by
    rcases hstates with h | h | h <;> rw [h] <;> intro hc <;> cases hc
  intro cmd verb restParts hf
  refine ⟨?_, ?_, ?_⟩
  · intro hv
    unfold step processCommand
    rw [hf]
    dsimp only
    rw [hv]
    rw [if_neg (by decide), if_neg (by decide), if_neg (by decide),
      if_pos rfl]
    rw [handleMail_noauth cfg (trimWS cmd) sess hreq hna]
    rfl
  · intro hv
    unfold step processCommand
    rw [hf]
    dsimp only
    rw [hv]
    rw [if_neg (by decide), if_neg (by decide), if_neg (by decide),
      if_neg (by decide), if_pos rfl]
    rw [handleRcpt_badseq (trimWS cmd) sess hsMail hsRcpt]
    rfl
  · intro hv
    unfold step processCommand
    rw [hf]
    dsimp only
    rw [hv]
    rw [if_neg (by decide), if_neg (by decide), if_neg (by decide),
      if_neg (by decide), if_neg (by decide), if_pos rfl]
    rw [handleData_badseq env sess hsRcpt]
    rfl

/-- C4, witness: the amended statement at the reachable post-EHLO
session, for the concrete commands `MAIL FROM:<a@x>`, `RCPT TO:<b@y>`
and `DATA`. -/
theorem C4_preauth_replies_amended_witness :
    (step cfgT envOK "MAIL FROM:<a@x>"
      (step cfgT envOK "EHLO c" initialSession).sess).replies =
      ["530 Authentication required"] ∧
    (step cfgT envOK "RCPT TO:<b@y>"
      (step cfgT envOK "EHLO c" initialSession).sess).replies =
      ["503 Bad sequence of commands"] ∧
    (step cfgT envOK "DATA"
      (step cfgT envOK "EHLO c" initialSession).sess).replies =
      ["503 Bad sequence of commands"] :=
  ⟨(C4_preauth_replies_amended cfgT envOK _ rfl
      (Reachable.step envOK "EHLO c" initialSession Reachable.init)
      (by decide) "MAIL FROM:<a@x>" "MAIL" ["FROM:<a@x>"]
      (by decide)).1 rfl,
   (C4_preauth_replies_amended cfgT envOK _ rfl
      (Reachable.step envOK "EHLO c" initialSession Reachable.init)
      (by decide) "RCPT TO:<b@y>" "RCPT" ["TO:<b@y>"]
      (by decide)).2.1 rfl,
   (C4_preauth_replies_amended cfgT envOK _ rfl
      (Reachable.step envOK "EHLO c" initialSession Reachable.init)
      (by decide) "DATA" "DATA" [] (by decide)).2.2 rfl⟩

end MailPulse
